import Mathlib

/-!
Shallow embedding of the `range-requests` crate: typed `Range` /
`Content-Range` HTTP headers (parsing, serialization, matching) and the
range-resolution engine `file_range` / `serve_file_with_http_range`.

Rust `u64` values are modelled as `Nat`; the places where 64-bit
overflow matters in the source (`checked_add`, parse overflow) carry an
explicit `2 ^ 64` bound.  Rust strings are modelled as `List Char`.
Functions that can panic in the source (an `unwrap` of an `Err`) return
`Option`, with `none` standing for the panic.
-/

deriving instance DecidableEq for Except

namespace RangeRequests

/-- Decimal digit character (`48 + d`), as produced by Rust integer formatting. -/
def digitChar (d : Nat) : Char := Char.ofNat (48 + d)

/-- Decimal rendering of a natural number, digit list form, driven by fuel
so that it is structurally recursive.  `natToChars` below always supplies
enough fuel.  This models the Rust `u64` `Display` implementation. -/
def natToCharsAux : Nat → Nat → List Char
  | 0, _ => []
  | fuel + 1, n =>
    if n < 10 then [digitChar n]
    else natToCharsAux fuel (n / 10) ++ [digitChar (n % 10)]

/-- Decimal rendering of a `u64` value, as in Rust `format!` of a `u64`. -/
def natToChars (n : Nat) : List Char := natToCharsAux (n + 1) n

/-- The numeric value of a decimal digit character, when it is one. -/
def charDigit (c : Char) : Option Nat :=
  if 48 ≤ c.toNat ∧ c.toNat ≤ 57 then some (c.toNat - 48) else none

/-- Accumulating decimal evaluation with the per-step 64-bit overflow check
performed by Rust `from_str_radix` (checked multiply and add). -/
def digitsVal (acc : Nat) : List Char → Option Nat
  | [] => some acc
  | c :: rest =>
    match charDigit c with
    | some d => if acc * 10 + d < 2 ^ 64 then digitsVal (acc * 10 + d) rest else none
    | none => none

/-- Rust `u64::from_str`: an optional leading `+` sign (a `-` is rejected for
unsigned types), then one or more decimal digits, value below `2 ^ 64`. -/
def parseU64 (s : List Char) : Option Nat :=
  let digits := if s.head? = some '+' then s.tail else s
  match digits with
  | [] => none
  | _ :: _ => digitsVal 0 digits

/-- Rust `str::split_once(sep)`: split at the first occurrence of `sep`,
`none` when `sep` does not occur. -/
def splitOnce (sep : Char) : List Char → Option (List Char × List Char)
  | [] => none
  | c :: rest =>
    if c = sep then some ([], rest)
    else
      match splitOnce sep rest with
      | some (l, r) => some (c :: l, r)
      | none => none

/-- Rust `char::is_whitespace` (the Unicode `White_Space` property). -/
def rustIsWhitespace (c : Char) : Bool :=
  c.toNat ∈ [9, 10, 11, 12, 13, 32, 133, 160, 5760, 8232, 8233, 8239, 8287, 12288]
    || (8192 ≤ c.toNat && c.toNat ≤ 8202)

/-- Rust `str::trim`: strip leading and trailing whitespace. -/
def rustTrim (s : List Char) : List Char :=
  ((s.dropWhile rustIsWhitespace).reverse.dropWhile rustIsWhitespace).reverse

/-- The literal unit token `bytes` (headers/mod.rs `UNIT`). -/
def UNIT : List Char := ['b', 'y', 't', 'e', 's']

/-- Error for `u64` header-field parsing (headers/mod.rs `InvalidHttpU64`). -/
inductive InvalidHttpU64 where
  | HasSignPrefix (s : List Char)
  | InvalidInt
  deriving DecidableEq, Repr

/-- Error for an ill-ordered range (headers/mod.rs `InvalidOrderedRange`). -/
structure InvalidOrderedRange where
  start : Nat
  «end» : Nat
  deriving DecidableEq, Repr

/-- An inclusive byte interval (headers/mod.rs `OrderedRange`). -/
structure OrderedRange where
  start : Nat
  «end» : Nat
  deriving DecidableEq, Repr

/-- `OrderedRange::new`, taking the two endpoints of the `RangeInclusive`. -/
def OrderedRange.new (start «end» : Nat) : Except InvalidOrderedRange OrderedRange :=
  if start > «end» then .error ⟨start, «end»⟩ else .ok ⟨start, «end»⟩

/-- `Display for OrderedRange` (headers/mod.rs): writes the unit token and
an equals sign before the two endpoints. -/
def OrderedRange.display (r : OrderedRange) : List Char :=
  UNIT ++ '=' :: natToChars r.start ++ '-' :: natToChars r.«end»

/-- headers/mod.rs `u64_unprefixed_parse`. -/
def u64_unprefixed_parse (s : List Char) : Except InvalidHttpU64 Nat :=
  if s.head? = some '+' then .error (.HasSignPrefix s)
  else
    match parseU64 s with
    | some v => .ok v
    | none => .error .InvalidInt

/-- Parse errors shared by both headers (headers/mod.rs). -/
inductive ParseHttpRangeOrContentRangeError where
  | Malformed
  | ContainsNonVisibleASCII
  | Empty
  | InvalidUnit
  | MalformedRange
  | UnorderedRange (e : InvalidOrderedRange)
  | InvalidRangePiece (e : InvalidHttpU64)
  | InvalidSize (e : InvalidHttpU64)
  deriving DecidableEq, Repr

/-- The typed `Range` header (headers/range.rs `HttpRange`). -/
inductive HttpRange where
  | StartingPoint (n : Nat)
  | Range (r : OrderedRange)
  | Suffix (n : Nat)
  deriving DecidableEq, Repr

/-- `FromStr for HttpRange` (headers/range.rs).  Note that the bounded
branch parses its two pieces with `u64_unprefixed_parse`, while the
`StartingPoint` and `Suffix` branches call the plain `str::parse::<u64>`
and map any failure to `MalformedRange`. -/
def HttpRange.fromStr (input : List Char) :
    Except ParseHttpRangeOrContentRangeError HttpRange :=
  let s := rustTrim input
  if s.isEmpty then .error .Empty
  else
    match splitOnce '=' s with
    | none => .error .Malformed
    | some (unitStr, rangeStr) =>
      if unitStr ≠ UNIT then .error .InvalidUnit
      else
        match splitOnce '-' rangeStr with
        | none => .error .MalformedRange
        | some (startStr, endStr) =>
          match startStr.isEmpty, endStr.isEmpty with
          | false, false =>
            match u64_unprefixed_parse startStr with
            | .error e => .error (.InvalidRangePiece e)
            | .ok start =>
              match u64_unprefixed_parse endStr with
              | .error e => .error (.InvalidRangePiece e)
              | .ok «end» =>
                match OrderedRange.new start «end» with
                | .error e => .error (.UnorderedRange e)
                | .ok range => .ok (.Range range)
          | false, true =>
            match parseU64 startStr with
            | none => .error .MalformedRange
            | some start => .ok (.StartingPoint start)
          | true, false =>
            match parseU64 endStr with
            | none => .error .MalformedRange
            | some suffix => .ok (.Suffix suffix)
          | true, true => .error .Malformed

/-- `Display for HttpRange` (headers/range.rs): the `Range` arm interpolates
the `OrderedRange` `Display` after its own unit-and-equals prefix. -/
def HttpRange.display : HttpRange → List Char
  | .StartingPoint start => UNIT ++ '=' :: natToChars start ++ ['-']
  | .Range range => UNIT ++ '=' :: range.display
  | .Suffix suffix => UNIT ++ '=' :: '-' :: natToChars suffix

/-- Errors of `Bound::new` (headers/content_range.rs `InvalidBound`). -/
inductive InvalidBound where
  | InvalidRange (e : InvalidOrderedRange)
  | InvalidSize (range : OrderedRange) (size : Nat)
  deriving DecidableEq, Repr

/-- A satisfiable `Content-Range` (headers/content_range.rs `Bound`). -/
structure Bound where
  range : OrderedRange
  size : Option Nat
  deriving DecidableEq, Repr

/-- `Bound::new`, taking the endpoints of the `RangeInclusive` argument. -/
def Bound.new (start «end» : Nat) (size : Option Nat) : Except InvalidBound Bound :=
  match OrderedRange.new start «end» with
  | .error e => .error (.InvalidRange e)
  | .ok range =>
    match size with
    | some s =>
      if range.«end» ≥ s then .error (.InvalidSize range s) else .ok ⟨range, some s⟩
    | none => .ok ⟨range, none⟩

/-- An unsatisfiable `Content-Range` (headers/content_range.rs `Unsatisfiable`). -/
structure Unsatisfiable where
  size : Nat
  deriving DecidableEq, Repr

/-- The typed `Content-Range` header (headers/content_range.rs
`HttpContentRange`). -/
inductive HttpContentRange where
  | Bound (b : RangeRequests.Bound)
  | Unsatisfiable (u : RangeRequests.Unsatisfiable)
  deriving DecidableEq, Repr

/-- Rust `u64::checked_add`, on `Nat` with the explicit 64-bit bound. -/
def u64CheckedAdd (a b : Nat) : Option Nat :=
  if a + b < 2 ^ 64 then some (a + b) else none

/-- `HttpContentRange::matches_requested_range` (headers/content_range.rs).
The subtraction in the `Suffix`/`Bound` arm is `u64` subtraction of the two
endpoints of an `OrderedRange`, which never underflows for a value built by
`OrderedRange::new`; the increment is `checked_add`. -/
def HttpContentRange.matches_requested_range (self : HttpContentRange)
    (expected_range : HttpRange) : Bool :=
  match expected_range, self with
  | .StartingPoint start, .Bound b => start == b.range.start
  | .Range o, .Bound b => o.start == b.range.start && o.«end» == b.range.«end»
  | .Suffix suffix, .Bound b =>
    u64CheckedAdd (b.range.«end» - b.range.start) 1 == some suffix
  | .StartingPoint n, .Unsatisfiable u => decide (n ≥ u.size)
  | .Range o, .Unsatisfiable u => decide (o.«end» ≥ u.size)
  | .Suffix suffix, .Unsatisfiable u => decide (suffix > u.size)

/-- headers/content_range.rs `ParsedRange` (private parse intermediate). -/
inductive ParsedRange where
  | Star
  | Range (r : OrderedRange)
  deriving DecidableEq, Repr

/-- headers/content_range.rs `ParsedSize` (private parse intermediate). -/
inductive ParsedSize where
  | Star
  | Value (n : Nat)
  deriving DecidableEq, Repr

/-- `FromStr for ParsedRange` (headers/content_range.rs). -/
def ParsedRange.fromStr (s : List Char) :
    Except ParseHttpRangeOrContentRangeError ParsedRange :=
  if s = ['*'] then .ok .Star
  else
    match splitOnce '-' s with
    | none => .error .MalformedRange
    | some (startStr, endStr) =>
      match u64_unprefixed_parse startStr with
      | .error e => .error (.InvalidRangePiece e)
      | .ok start =>
        match u64_unprefixed_parse endStr with
        | .error e => .error (.InvalidRangePiece e)
        | .ok «end» =>
          match OrderedRange.new start «end» with
          | .error e => .error (.UnorderedRange e)
          | .ok range => .ok (.Range range)

/-- `FromStr for ParsedSize` (headers/content_range.rs). -/
def ParsedSize.fromStr (s : List Char) : Except InvalidHttpU64 ParsedSize :=
  if s = ['*'] then .ok .Star
  else
    match u64_unprefixed_parse s with
    | .error e => .error e
    | .ok size => .ok (.Value size)

/-- `FromStr for HttpContentRange` (headers/content_range.rs).  The final
combination step builds the `Bound` struct literally, without going through
`Bound::new`. -/
def HttpContentRange.fromStr (input : List Char) :
    Except ParseHttpRangeOrContentRangeError HttpContentRange :=
  let s := rustTrim input
  if s.isEmpty then .error .Empty
  else
    match splitOnce ' ' s with
    | none => .error .Malformed
    | some (unitStr, rangeAndSizeStr) =>
      if unitStr ≠ UNIT then .error .InvalidUnit
      else
        match splitOnce '/' rangeAndSizeStr with
        | none => .error .Malformed
        | some (rangeStr, sizeStr) =>
          match ParsedRange.fromStr rangeStr with
          | .error e => .error e
          | .ok pr =>
            match ParsedSize.fromStr sizeStr with
            | .error e => .error (.InvalidSize e)
            | .ok ps =>
              match pr, ps with
              | .Star, .Star => .error .Malformed
              | .Star, .Value size => .ok (.Unsatisfiable ⟨size⟩)
              | .Range range, .Star => .ok (.Bound ⟨range, none⟩)
              | .Range range, .Value size => .ok (.Bound ⟨range, some size⟩)

/-- `Display for HttpContentRange` (headers/content_range.rs): the `Bound`
arms interpolate the `OrderedRange` `Display` after the unit and a space. -/
def HttpContentRange.display : HttpContentRange → List Char
  | .Bound b =>
    match b.size with
    | some size => UNIT ++ ' ' :: b.range.display ++ '/' :: natToChars size
    | none => UNIT ++ ' ' :: b.range.display ++ ['/', '*']
  | .Unsatisfiable u => UNIT ++ ' ' :: '*' :: '/' :: natToChars u.size

/-- lib.rs `ContentRange`: the resolved window (endpoints of the
`RangeInclusive<u64>`) and the header to attach. -/
structure ContentRange where
  header : Option HttpContentRange
  rangeStart : Nat
  rangeEnd : Nat
  deriving DecidableEq, Repr

/-- lib.rs `UnsatisfiableRange`: the error envelope around the
`Content-Range` header to report. -/
structure UnsatisfiableRange where
  header : HttpContentRange
  deriving DecidableEq, Repr

/-- lib.rs `file_range`.  The source guards each satisfiable arm and
`unwrap`s the `Bound::new` result; an `unwrap` of an `Err` is a panic,
modelled as `none`.  `size.checked_sub(suffix).is_some()` is `suffix ≤ size`
and the `u64` subtractions then agree with `Nat` subtraction. -/
def file_range (size : Nat) (http_range : Option HttpRange) :
    Option (Except UnsatisfiableRange ContentRange) :=
  match http_range with
  | none => some (.ok ⟨none, 0, size - 1⟩)
  | some hr =>
    match hr with
    | .StartingPoint start =>
      if size > start then
        match Bound.new start (size - 1) (some size) with
        | .ok b => some (.ok ⟨some (.Bound b), start, size - 1⟩)
        | .error _ => none
      else some (.error ⟨.Unsatisfiable ⟨size⟩⟩)
    | .Range orderedRange =>
      if size > orderedRange.«end» then
        match Bound.new orderedRange.start orderedRange.«end» (some size) with
        | .ok b => some (.ok ⟨some (.Bound b), orderedRange.start, orderedRange.«end»⟩)
        | .error _ => none
      else some (.error ⟨.Unsatisfiable ⟨size⟩⟩)
    | .Suffix suffix =>
      if suffix ≤ size then
        match Bound.new (size - suffix) (size - 1) (some size) with
        | .ok b => some (.ok ⟨some (.Bound b), size - suffix, size - 1⟩)
        | .error _ => none
      else some (.error ⟨.Unsatisfiable ⟨size⟩⟩)

/-- lib.rs `BodyRange`, with the body a byte list. -/
structure BodyRange where
  body : List Nat
  header : Option HttpContentRange
  deriving DecidableEq, Repr

/-- lib.rs `serve_file_with_http_range`.  The zero-size check is the
`NonZeroU64::try_from` failure path; `Bytes::slice(start..=end)` panics
(`none`) when the window exceeds the buffer. -/
def serve_file_with_http_range (body : List Nat) (http_range : Option HttpRange) :
    Option (Except UnsatisfiableRange BodyRange) :=
  let size := body.length
  if size = 0 then some (.error ⟨.Unsatisfiable ⟨0⟩⟩)
  else
    match file_range size http_range with
    | none => none
    | some (.error e) => some (.error e)
    | some (.ok cr) =>
      if cr.rangeStart ≤ cr.rangeEnd + 1 ∧ cr.rangeEnd + 1 ≤ size then
        some (.ok ⟨(body.drop cr.rangeStart).take (cr.rangeEnd + 1 - cr.rangeStart),
          cr.header⟩)
      else none

end RangeRequests

namespace RangeRequests

/-- Claim C1: parsing the serialized text of a constructible value returns the
value again.  This fails: the `OrderedRange` `Display` emits its own
`bytes=` prefix, so the serialized `Range` variant and the serialized sized
`Bound` variant (here `Range(50..=100)` and `Bound{10-20, Some(50)}`) do not
parse back, each failing with `InvalidRangePiece(InvalidInt)`; the crate's
own `succesful_range_to_string` and `succesful_sized_bound_to_string` tests
expect the prefix-free forms. -/
theorem roundtrip_fails_on_range_and_bound :
    HttpRange.display (.Range ⟨50, 100⟩) = ("bytes=bytes=50-100").toList ∧
    HttpRange.fromStr (HttpRange.display (.Range ⟨50, 100⟩)) =
      .error (.InvalidRangePiece .InvalidInt) ∧
    HttpContentRange.fromStr (HttpContentRange.display (.Bound ⟨⟨10, 20⟩, some 50⟩)) =
      .error (.InvalidRangePiece .InvalidInt) := by
  refine ⟨by decide, by decide, by decide⟩

/-- Claim C2: `file_range(size, Some(Suffix(0)))` is claimed to succeed with
the degenerate empty window `[size, size-1]`.  In the code the guard
`size.checked_sub(0).is_some()` passes, but `Bound::new(size..=size-1, ..)`
fails the ordering check (`size > size - 1`) and the result is `unwrap`ped:
the call panics (modelled as `none`) instead of succeeding. -/
theorem file_range_suffix_zero_panics (size : Nat) (h : 0 < size) :
    file_range size (some (.Suffix 0)) = none := by
  simp [file_range, Bound.new, OrderedRange.new, h]

/-- Witness for `file_range_suffix_zero_panics` at `size = 5`. -/
theorem file_range_suffix_zero_panics_witness :
    0 < 5 ∧ file_range 5 (some (.Suffix 0)) = none :=
  ⟨by decide, file_range_suffix_zero_panics 5 (by decide)⟩

/-- Claim C3 counterexample: parsing a `Content-Range` whose range end
reaches or exceeds the stated size is claimed to fail with the invalid-size
error; instead `from_str` builds the `Bound` struct literally, so
`bytes 10-20/15` parses successfully into a `Bound` violating
`range.end < size`. -/
theorem parse_does_not_enforce_bound_size_invariant :
    HttpContentRange.fromStr (("bytes 10-20/15").toList) =
      .ok (.Bound ⟨⟨10, 20⟩, some 15⟩) ∧
    ¬ ((20 : Nat) < 15) := by
  refine ⟨by decide, by decide⟩

/-- Claim C3 (amended): a `Bound` constructed through `Bound::new` with a
known size always satisfies `range.end < size` (and `Bound::new` rejects a
violating input with `InvalidBound::InvalidSize`), but the parsing path does
not enforce the invariant. -/
theorem bound_new_enforces_size_invariant (start «end» size : Nat) :
    (∀ b, Bound.new start «end» (some size) = .ok b →
      b.range = ⟨start, «end»⟩ ∧ b.size = some size ∧ b.range.«end» < size) ∧
    (start ≤ «end» → size ≤ «end» →
      Bound.new start «end» (some size) = .error (.InvalidSize ⟨start, «end»⟩ size)) := by
  constructor
  · intro b hb
    by_cases hord : start > «end»
    · simp [Bound.new, OrderedRange.new, hord] at hb
    · by_cases hsz : «end» ≥ size
      · simp [Bound.new, OrderedRange.new, hord, hsz] at hb
      · simp [Bound.new, OrderedRange.new, hord, hsz] at hb
        subst hb
        refine ⟨rfl, rfl, ?_⟩
        show «end» < size
        omega
  · intro hord hsz
    have h1 : ¬ start > «end» := by omega
    have h2 : «end» ≥ size := hsz
    simp [Bound.new, OrderedRange.new, h1, h2]

/-- Witness for `bound_new_enforces_size_invariant`: `Bound::new(10..=20,
Some(50))` succeeds with `20 < 50`, and `Bound::new(10..=50, Some(20))`
fails with the size-invariant error. -/
theorem bound_new_enforces_size_invariant_witness :
    ((⟨⟨10, 20⟩, some 50⟩ : Bound).range = ⟨10, 20⟩ ∧
      (⟨⟨10, 20⟩, some 50⟩ : Bound).size = some 50 ∧
      (⟨⟨10, 20⟩, some 50⟩ : Bound).range.«end» < 50) ∧
    Bound.new 10 50 (some 20) = .error (.InvalidSize ⟨10, 50⟩ 20) :=
  ⟨(bound_new_enforces_size_invariant 10 20 50).1 ⟨⟨10, 20⟩, some 50⟩ (by decide),
    (bound_new_enforces_size_invariant 10 50 20).2 (by decide) (by decide)⟩

/-- Claim C4 counterexample: a sign-prefixed `StartingPoint` is claimed to be
rejected, but `bytes=+5-` parses successfully as `StartingPoint(5)` because
that branch uses the standard integer parser, which accepts a leading `+`. -/
theorem plus_prefixed_starting_point_is_accepted :
    HttpRange.fromStr (("bytes=+5-").toList) = .ok (.StartingPoint 5) := by decide

/-- Claim C4 (amended): a `+`-prefixed token is rejected with `HasSignPrefix`
in the start and end positions of a bounded `Range` and in the range and
size fields of `Content-Range`, but the `StartingPoint` and `Suffix`
branches use the standard integer parser, so `bytes=+5-` and `bytes=-+5`
parse successfully as `StartingPoint(5)` and `Suffix(5)`. -/
theorem sign_prefix_policy_per_position :
    HttpRange.fromStr (("bytes=+5-7").toList) =
      .error (.InvalidRangePiece (.HasSignPrefix (("+5").toList))) ∧
    HttpRange.fromStr (("bytes=5-+7").toList) =
      .error (.InvalidRangePiece (.HasSignPrefix (("+7").toList))) ∧
    HttpContentRange.fromStr (("bytes +5-7/9").toList) =
      .error (.InvalidRangePiece (.HasSignPrefix (("+5").toList))) ∧
    HttpContentRange.fromStr (("bytes 5-7/+9").toList) =
      .error (.InvalidSize (.HasSignPrefix (("+9").toList))) ∧
    HttpRange.fromStr (("bytes=-+5").toList) = .ok (.Suffix 5) := by
  refine ⟨by decide, by decide, by decide, by decide, by decide⟩

/-- Helper: the facts guaranteed by a successful `Bound::new` call with a
known size. -/
theorem bound_new_some_ok_facts (lo hi s : Nat) (b : Bound)
    (hb : Bound.new lo hi (some s) = .ok b) :
    b.range = ⟨lo, hi⟩ ∧ b.size = some s ∧ lo ≤ hi ∧ hi < s := by
  by_cases hord : lo > hi
  · simp [Bound.new, OrderedRange.new, hord] at hb
  · by_cases hsz : hi ≥ s
    · simp [Bound.new, OrderedRange.new, hord, hsz] at hb
    · simp [Bound.new, OrderedRange.new, hord, hsz] at hb
      subst hb
      exact ⟨rfl, rfl, by omega, by omega⟩

/-- Claim C5: for a strictly positive size, `StartingPoint(start)` resolves
successfully exactly when `size > start`, to the window `[start, size-1]`
with the matching `Bound` header, and `Range(o)` resolves successfully
exactly when `size > o.end()`, to the window `[o.start(), o.end()]`; every
unsatisfiable case returns the `Unsatisfiable{size}` error value. -/
theorem file_range_starting_point_and_range (size start : Nat) (o : OrderedRange)
    (hsize : 0 < size) (ho : o.start ≤ o.«end») :
    file_range size (some (.StartingPoint start)) =
      (if size > start
        then some (.ok ⟨some (.Bound ⟨⟨start, size - 1⟩, some size⟩), start, size - 1⟩)
        else some (.error ⟨.Unsatisfiable ⟨size⟩⟩)) ∧
    file_range size (some (.Range o)) =
      (if size > o.«end»
        then some (.ok ⟨some (.Bound ⟨⟨o.start, o.«end»⟩, some size⟩), o.start, o.«end»⟩)
        else some (.error ⟨.Unsatisfiable ⟨size⟩⟩)) := by
  constructor
  · by_cases hgt : size > start
    · have h1 : ¬ start > size - 1 := by omega
      have h2 : ¬ size - 1 ≥ size := by omega
      simp [file_range, Bound.new, OrderedRange.new, hgt, h1, h2]
    · simp [file_range, hgt]
  · by_cases hgt : size > o.«end»
    · have h1 : ¬ o.start > o.«end» := by omega
      have h2 : ¬ o.«end» ≥ size := by omega
      simp [file_range, Bound.new, OrderedRange.new, hgt, h1, h2]
    · simp [file_range, hgt]

/-- Witness for `file_range_starting_point_and_range` at `size = 10`,
`start = 5`, `o = 2..=7`. -/
theorem file_range_starting_point_and_range_witness :
    0 < 10 ∧ (⟨2, 7⟩ : OrderedRange).start ≤ (⟨2, 7⟩ : OrderedRange).«end» ∧
    (file_range 10 (some (.StartingPoint 5)) =
      (if 10 > 5
        then some (.ok ⟨some (.Bound ⟨⟨5, 9⟩, some 10⟩), 5, 9⟩)
        else some (.error ⟨.Unsatisfiable ⟨10⟩⟩)) ∧
    file_range 10 (some (.Range ⟨2, 7⟩)) =
      (if 10 > 7
        then some (.ok ⟨some (.Bound ⟨⟨2, 7⟩, some 10⟩), 2, 7⟩)
        else some (.error ⟨.Unsatisfiable ⟨10⟩⟩))) :=
  ⟨by decide, by decide,
    file_range_starting_point_and_range 10 5 ⟨2, 7⟩ (by decide) (by decide)⟩

/-- Claim C6: `matches_requested_range` returns `true` exactly under the
policy-table conditions, for `Bound` values whose range is ordered and whose
numbers are `u64` values: `StartingPoint(s)` matches a `Bound` iff `s` is the
bound's start; `Range(o)` iff both endpoints coincide; `Suffix(n)` iff the
inclusive length `end - start + 1` equals `n` (the checked add overflowing
means no match); against `Unsatisfiable{size}`, `StartingPoint(n)` and
`Range` with end `n` match iff `n ≥ size`, and `Suffix(n)` iff `n > size`. -/
theorem matches_requested_range_policy_table (s n : Nat) (o : OrderedRange)
    (b : Bound) (u : Unsatisfiable)
    (hb : b.range.start ≤ b.range.«end») (hb64 : b.range.«end» < 2 ^ 64)
    (hn : n < 2 ^ 64) :
    ((HttpContentRange.Bound b).matches_requested_range (.StartingPoint s) = true ↔
      s = b.range.start) ∧
    ((HttpContentRange.Bound b).matches_requested_range (.Range o) = true ↔
      o.start = b.range.start ∧ o.«end» = b.range.«end») ∧
    ((HttpContentRange.Bound b).matches_requested_range (.Suffix n) = true ↔
      b.range.«end» - b.range.start + 1 = n) ∧
    ((HttpContentRange.Unsatisfiable u).matches_requested_range (.StartingPoint n) = true ↔
      n ≥ u.size) ∧
    ((HttpContentRange.Unsatisfiable u).matches_requested_range (.Range o) = true ↔
      o.«end» ≥ u.size) ∧
    ((HttpContentRange.Unsatisfiable u).matches_requested_range (.Suffix n) = true ↔
      n > u.size) := by
  refine ⟨?_, ?_, ?_, ?_, ?_, ?_⟩
  · simp [HttpContentRange.matches_requested_range]
  · simp [HttpContentRange.matches_requested_range]
  · by_cases hov : b.range.«end» - b.range.start + 1 < 2 ^ 64
    · simp [HttpContentRange.matches_requested_range, u64CheckedAdd, hov]
      omega
    · simp [HttpContentRange.matches_requested_range, u64CheckedAdd, hov]
      omega
  · simp [HttpContentRange.matches_requested_range]
  · simp [HttpContentRange.matches_requested_range]
  · simp [HttpContentRange.matches_requested_range]

/-- Witness for `matches_requested_range_policy_table` at `s = 10`, `n = 11`,
`o = 10..=20`, `b = Bound{10-20, Some(50)}`, `u = Unsatisfiable{20}`. -/
theorem matches_requested_range_policy_table_witness :
    (⟨⟨10, 20⟩, some 50⟩ : Bound).range.start ≤
        (⟨⟨10, 20⟩, some 50⟩ : Bound).range.«end» ∧
    (⟨⟨10, 20⟩, some 50⟩ : Bound).range.«end» < 2 ^ 64 ∧ (11 : Nat) < 2 ^ 64 ∧
    (((HttpContentRange.Bound ⟨⟨10, 20⟩, some 50⟩).matches_requested_range
        (.StartingPoint 10) = true ↔ (10 : Nat) = (⟨⟨10, 20⟩, some 50⟩ : Bound).range.start) ∧
    ((HttpContentRange.Bound ⟨⟨10, 20⟩, some 50⟩).matches_requested_range
        (.Range ⟨10, 20⟩) = true ↔
      (⟨10, 20⟩ : OrderedRange).start = (⟨⟨10, 20⟩, some 50⟩ : Bound).range.start ∧
        (⟨10, 20⟩ : OrderedRange).«end» = (⟨⟨10, 20⟩, some 50⟩ : Bound).range.«end») ∧
    ((HttpContentRange.Bound ⟨⟨10, 20⟩, some 50⟩).matches_requested_range
        (.Suffix 11) = true ↔
      (⟨⟨10, 20⟩, some 50⟩ : Bound).range.«end» -
          (⟨⟨10, 20⟩, some 50⟩ : Bound).range.start + 1 = 11) ∧
    ((HttpContentRange.Unsatisfiable ⟨20⟩).matches_requested_range
        (.StartingPoint 11) = true ↔ (11 : Nat) ≥ (⟨20⟩ : Unsatisfiable).size) ∧
    ((HttpContentRange.Unsatisfiable ⟨20⟩).matches_requested_range
        (.Range ⟨10, 20⟩) = true ↔
      (⟨10, 20⟩ : OrderedRange).«end» ≥ (⟨20⟩ : Unsatisfiable).size) ∧
    ((HttpContentRange.Unsatisfiable ⟨20⟩).matches_requested_range
        (.Suffix 11) = true ↔ (11 : Nat) > (⟨20⟩ : Unsatisfiable).size)) :=
  ⟨by decide, by norm_num, by norm_num,
    matches_requested_range_policy_table 10 11 ⟨10, 20⟩ ⟨⟨10, 20⟩, some 50⟩ ⟨20⟩
      (by decide) (by norm_num) (by norm_num)⟩

/-- Claim C10: whenever `file_range` succeeds for a strictly positive size,
the returned window satisfies `start ≤ end < size`, and an attached header
is always a `Bound` whose range coincides with the window and whose size
field is `Some(size)`. -/
theorem file_range_success_invariants (size : Nat) (r : Option HttpRange)
    (cr : ContentRange) (hsize : 0 < size)
    (h : file_range size r = some (.ok cr)) :
    cr.rangeStart ≤ cr.rangeEnd ∧ cr.rangeEnd < size ∧
      ∀ hdr, cr.header = some hdr →
        ∃ b, hdr = .Bound b ∧ b.range.start = cr.rangeStart ∧
          b.range.«end» = cr.rangeEnd ∧ b.size = some size := by
  match r with
  | none =>
    simp only [file_range, Option.some.injEq, Except.ok.injEq] at h
    subst h
    dsimp only
    exact ⟨by omega, by omega, by intro hdr hh; simp at hh⟩
  | some (.StartingPoint start) =>
    by_cases hgt : size > start
    · simp only [file_range, if_pos hgt] at h
      rcases hbnd : Bound.new start (size - 1) (some size) with e | b <;> rw [hbnd] at h
      · simp at h
      · simp only [Option.some.injEq, Except.ok.injEq] at h
        subst h
        obtain ⟨hr, hs, hlo, hhi⟩ := bound_new_some_ok_facts _ _ _ _ hbnd
        dsimp only
        refine ⟨by omega, by omega, ?_⟩
        intro hdr hh
        simp only [Option.some.injEq] at hh
        exact ⟨b, hh.symm, by rw [hr], by rw [hr], hs⟩
    · simp [file_range, hgt] at h
  | some (.Range o) =>
    by_cases hgt : size > o.«end»
    · simp only [file_range, if_pos hgt] at h
      rcases hbnd : Bound.new o.start o.«end» (some size) with e | b <;> rw [hbnd] at h
      · simp at h
      · simp only [Option.some.injEq, Except.ok.injEq] at h
        subst h
        obtain ⟨hr, hs, hlo, hhi⟩ := bound_new_some_ok_facts _ _ _ _ hbnd
        dsimp only
        refine ⟨by omega, by omega, ?_⟩
        intro hdr hh
        simp only [Option.some.injEq] at hh
        exact ⟨b, hh.symm, by rw [hr], by rw [hr], hs⟩
    · simp [file_range, hgt] at h
  | some (.Suffix suffix) =>
    by_cases hle : suffix ≤ size
    · simp only [file_range, if_pos hle] at h
      rcases hbnd : Bound.new (size - suffix) (size - 1) (some size) with e | b <;>
        rw [hbnd] at h
      · simp at h
      · simp only [Option.some.injEq, Except.ok.injEq] at h
        subst h
        obtain ⟨hr, hs, hlo, hhi⟩ := bound_new_some_ok_facts _ _ _ _ hbnd
        dsimp only
        refine ⟨by omega, by omega, ?_⟩
        intro hdr hh
        simp only [Option.some.injEq] at hh
        exact ⟨b, hh.symm, by rw [hr], by rw [hr], hs⟩
    · simp [file_range, hle] at h

/-- Witness for `file_range_success_invariants` at `size = 10`,
`r = Some(StartingPoint(5))`. -/
theorem file_range_success_invariants_witness :
    0 < 10 ∧
    file_range 10 (some (.StartingPoint 5)) =
      some (.ok ⟨some (.Bound ⟨⟨5, 9⟩, some 10⟩), 5, 9⟩) ∧
    ((⟨some (.Bound ⟨⟨5, 9⟩, some 10⟩), 5, 9⟩ : ContentRange).rangeStart ≤
        (⟨some (.Bound ⟨⟨5, 9⟩, some 10⟩), 5, 9⟩ : ContentRange).rangeEnd ∧
      (⟨some (.Bound ⟨⟨5, 9⟩, some 10⟩), 5, 9⟩ : ContentRange).rangeEnd < 10 ∧
      ∀ hdr, (⟨some (.Bound ⟨⟨5, 9⟩, some 10⟩), 5, 9⟩ : ContentRange).header = some hdr →
        ∃ b, hdr = .Bound b ∧
          b.range.start = (⟨some (.Bound ⟨⟨5, 9⟩, some 10⟩), 5, 9⟩ : ContentRange).rangeStart ∧
          b.range.«end» = (⟨some (.Bound ⟨⟨5, 9⟩, some 10⟩), 5, 9⟩ : ContentRange).rangeEnd ∧
          b.size = some 10) :=
  ⟨by decide, by decide,
    file_range_success_invariants 10 (some (.StartingPoint 5))
      ⟨some (.Bound ⟨⟨5, 9⟩, some 10⟩), 5, 9⟩ (by decide) (by decide)⟩

/-- Claim C7: serialization is claimed to produce exactly the grammar forms,
with `OrderedRange` contributing only the prefix-free `<start>-<end>`.  The
code instead duplicates the unit token: `Range(50..=100)` serializes to
`bytes=bytes=50-100` (not `bytes=50-100`) and a sized `Bound` to
`bytes bytes=10-20/50` (not `bytes 10-20/50`), against the crate's own
serialization tests; only the `Unsatisfiable` form matches the grammar. -/
theorem display_duplicates_unit_token :
    HttpRange.display (.Range ⟨50, 100⟩) = ("bytes=bytes=50-100").toList ∧
    HttpRange.display (.Range ⟨50, 100⟩) ≠ ("bytes=50-100").toList ∧
    HttpContentRange.display (.Bound ⟨⟨10, 20⟩, some 50⟩) =
      ("bytes bytes=10-20/50").toList ∧
    HttpContentRange.display (.Bound ⟨⟨10, 20⟩, some 50⟩) ≠
      ("bytes 10-20/50").toList ∧
    HttpContentRange.display (.Bound ⟨⟨10, 20⟩, none⟩) =
      ("bytes bytes=10-20/*").toList ∧
    HttpContentRange.display (.Unsatisfiable ⟨50⟩) = ("bytes */50").toList := by
  refine ⟨by decide, by decide, by decide, by decide, by decide, by decide⟩

/-- Claim C8: with no range requested, `file_range` succeeds with the window
`[0, size-1]` and attaches no `Content-Range` header. -/
theorem file_range_none_is_whole_window (size : Nat) (h : 0 < size) :
    file_range size none = some (.ok ⟨none, 0, size - 1⟩) := rfl

/-- Witness for `file_range_none_is_whole_window` at `size = 7`. -/
theorem file_range_none_is_whole_window_witness :
    0 < 7 ∧ file_range 7 none = some (.ok ⟨none, 0, 6⟩) :=
  ⟨by decide, file_range_none_is_whole_window 7 (by decide)⟩

/-- Claim C9: serving a zero-length buffer fails with the
`UnsatisfiableRange` error carrying `Unsatisfiable{size: 0}` for every
optional `HttpRange`, never succeeding with a body. -/
theorem serve_empty_buffer_is_unsatisfiable (http_range : Option HttpRange) :
    serve_file_with_http_range [] http_range =
      some (.error ⟨.Unsatisfiable ⟨0⟩⟩) := rfl

end RangeRequests
